import Mathlib

/-!
Shallow embedding of the real-time messaging and notification layer of the
findam-rencontre backend, together with proofs of the specified properties.

The definitions below are translated from the repository sources:
messaging/models.py, messaging/consumers.py, notifications/models.py,
notifications/consumers.py and notifications/services.py.  Database tables
are modelled as Lean lists of records; Django queryset primitives
(`get`, `filter`, `get_or_create`, `save(update_fields=...)`) become
list lookups and key-preserving list updates.  The channel layer is
modelled as a registry mapping group names to the list of channel ids
currently joined; `group_send` events are recorded in an event trace.
Group names, which the source builds as f-strings with distinct literal
prefixes (`user_{id}`, `conversation_{id}`, `notifications_{id}`), are
modelled by a structured type so that distinct ids give distinct groups.
-/

namespace Findam

/-- The `RECEIPT_CHOICES` of `MessageReceipt` in messaging/models.py. -/
inductive ReceiptStatus : Type
  | SENT
  | DELIVERED
  | READ
deriving DecidableEq, Repr

/-- Numeric height of a receipt status in the SENT < DELIVERED < READ order. -/
def ReceiptStatus.rank : ReceiptStatus → Nat
  | .SENT => 0
  | .DELIVERED => 1
  | .READ => 2

/-- `Conversation` of messaging/models.py: participant set, active flag and
last-activity timestamp (`updated_at`).  Timestamps are abstract Nat clocks. -/
structure Conversation where
  id : Nat
  participants : List Nat
  is_active : Bool
  updated_at : Nat
deriving DecidableEq, Repr

/-- `Message` of messaging/models.py. -/
structure Message where
  id : Nat
  conversation : Nat
  sender : Nat
  content : String
  message_type : String
  is_read : Bool
  created_at : Nat
deriving DecidableEq, Repr

/-- `MessageReceipt` of messaging/models.py, unique on (message, recipient). -/
structure MessageReceipt where
  message : Nat
  recipient : Nat
  status : ReceiptStatus
deriving DecidableEq, Repr

/-- The messaging database state.  `now` stands for `timezone.now()` and
`nextMessageId` for the autoincrementing message primary key. -/
structure DB where
  conversations : List Conversation
  messages : List Message
  receipts : List MessageReceipt
  nextMessageId : Nat
  now : Nat
deriving DecidableEq, Repr

/-- `Conversation.objects.get(id=conversation_id)`, returning none on
`DoesNotExist`. -/
def DB.getConversation (db : DB) (conversation_id : Nat) : Option Conversation :=
  db.conversations.find? (fun c => c.id == conversation_id)

/-- `Message.objects.get(id=message_id)`, returning none on `DoesNotExist`. -/
def DB.getMessage (db : DB) (message_id : Nat) : Option Message :=
  db.messages.find? (fun m => m.id == message_id)

/-- The row of the unique (message, recipient) receipt pair, when present. -/
def DB.findReceipt (db : DB) (message_id recipient : Nat) : Option MessageReceipt :=
  db.receipts.find? (fun r => r.message == message_id && r.recipient == recipient)

/-- The recorded status for a (message, recipient) pair. -/
def DB.receiptStatus (db : DB) (message_id recipient : Nat) : Option ReceiptStatus :=
  (db.findReceipt message_id recipient).map (fun r => r.status)

/-- `ChatConsumer.create_message`: fetch the conversation, refuse a sender
who is not a participant, otherwise persist the message and bump the
conversation `updated_at`.  The `is_active` flag is never consulted. -/
def create_message (db : DB) (conversation_id sender : Nat)
    (content message_type : String) : DB × Option Message :=
  match db.getConversation conversation_id with
  | none => (db, none)
  | some conversation =>
    if sender ∈ conversation.participants then
      let message : Message :=
        { id := db.nextMessageId, conversation := conversation_id, sender := sender,
          content := content, message_type := message_type, is_read := false,
          created_at := db.now }
      ({ db with
          messages := db.messages ++ [message],
          conversations := db.conversations.map (fun c =>
            if c.id == conversation_id then { c with updated_at := db.now } else c),
          nextMessageId := db.nextMessageId + 1 },
       some message)
    else (db, none)

/-- `ChatConsumer.create_message_receipt`: `get_or_create` on the
(message, recipient) pair with the requested status as default; when the
row already exists with a different status it is overwritten with the
requested status.  The same update shape is inlined by
`mark_messages_as_delivered` with status DELIVERED. -/
def create_message_receipt (db : DB) (message_id recipient : Nat)
    (status : ReceiptStatus) : DB :=
  match db.findReceipt message_id recipient with
  | none =>
    { db with receipts :=
        db.receipts ++ [{ message := message_id, recipient := recipient, status := status }] }
  | some r =>
    if r.status ≠ status then
      { db with receipts := db.receipts.map (fun r' =>
          if r'.message == message_id && r'.recipient == recipient then
            { r' with status := status }
          else r') }
    else db

/-- The messages table after `message.is_read = True; message.save()` on the
row with the given id. -/
def setRead (message_id : Nat) (ms : List Message) : List Message :=
  ms.map (fun m => if m.id == message_id then { m with is_read := true } else m)

/-- `ChatConsumer.mark_message_as_read`: return the message when it exists;
flip `is_read` only when the requester is not the sender. -/
def mark_message_as_read (db : DB) (user message_id : Nat) : DB × Option Message :=
  match db.getMessage message_id with
  | none => (db, none)
  | some message =>
    if message.sender ≠ user then
      ({ db with messages := setRead message_id db.messages },
       some { message with is_read := true })
    else (db, some message)

/-- `ChatConsumer.user_in_conversation`:
`Conversation.objects.filter(id=conversation_id, participants__id=user_id).exists()`. -/
def user_in_conversation (db : DB) (user_id conversation_id : Nat) : Bool :=
  db.conversations.any (fun c => c.id == conversation_id && c.participants.contains user_id)

/-- `ChatConsumer.mark_messages_as_delivered`: for every unread message of
the conversation not sent by the requesting user, `get_or_create` the
receipt for that user with default DELIVERED, setting it to DELIVERED when
an existing row differs; this per-message update is exactly
`create_message_receipt` with status DELIVERED. -/
def mark_messages_as_delivered (db : DB) (user conversation_id : Nat) : DB × Bool :=
  match db.getConversation conversation_id with
  | none => (db, false)
  | some _ =>
    let unread := db.messages.filter (fun m =>
      m.conversation == conversation_id && !m.is_read && m.sender != user)
    (unread.foldl (fun acc m => create_message_receipt acc m.id user .DELIVERED) db, true)

/-- Channel-layer group names: the source builds them as the f-strings
`user_{id}`, `conversation_{id}` and `notifications_{id}`, whose literal
prefixes keep the three families disjoint and injective in the id. -/
inductive Group : Type
  | user (id : Nat)
  | conversation (id : Nat)
  | notifications (id : Nat)
deriving DecidableEq, Repr

/-- `f"user_{id}"`. -/
def userGroup (id : Nat) : Group := Group.user id

/-- `f"conversation_{id}"`. -/
def conversationGroup (id : Nat) : Group := Group.conversation id

/-- `f"notifications_{id}"`. -/
def notificationsGroup (id : Nat) : Group := Group.notifications id

/-- One `group_send` call of ChatConsumer, tagged with its target group and
the payload fields the claims are about. -/
inductive Event : Type
  | chatMessage (group : Group) (message_id conversation_id sender_id : Nat)
  | conversationUpdate (group : Group) (conversation_id updated_at last_message_id : Nat)
  | messageRead (group : Group) (message_id conversation_id reader_id : Nat)
  | userTyping (group : Group) (user_id conversation_id : Nat)
deriving DecidableEq, Repr

/-- The group a `group_send` event is addressed to. -/
def Event.group : Event → Group
  | .chatMessage g _ _ _ => g
  | .conversationUpdate g _ _ _ => g
  | .messageRead g _ _ _ => g
  | .userTyping g _ _ => g

/-- Whether an event is a `chat_message` (delivered as `new_message`)
addressed to the given group. -/
def Event.isChatMessageTo (g : Group) : Event → Bool
  | .chatMessage g' _ _ _ => g' == g
  | _ => false

/-- Whether an event is a `conversation_update` addressed to the given group. -/
def Event.isConversationUpdateTo (g : Group) : Event → Bool
  | .conversationUpdate g' _ _ _ => g' == g
  | _ => false

/-- The channel layer: group name to the channels currently joined. -/
structure Registry where
  groups : List (Group × List Nat)
deriving DecidableEq, Repr

/-- The channels currently members of a group (empty when the group has no
entry). -/
def Registry.members (reg : Registry) (g : Group) : List Nat :=
  match reg.groups.find? (fun e => e.1 == g) with
  | some e => e.2
  | none => []

/-- `channel_layer.group_add`: add the channel to the named group
(idempotent, set semantics). -/
def Registry.groupAdd (reg : Registry) (g : Group) (ch : Nat) : Registry :=
  match reg.groups.find? (fun e => e.1 == g) with
  | none => ⟨reg.groups ++ [(g, [ch])]⟩
  | some e =>
    if ch ∈ e.2 then reg
    else ⟨reg.groups.map (fun e' => if e'.1 == g then (e'.1, e'.2 ++ [ch]) else e')⟩

/-- `channel_layer.group_discard`: remove the channel from the named group
(set semantics). -/
def Registry.groupDiscard (reg : Registry) (g : Group) (ch : Nat) : Registry :=
  ⟨reg.groups.map (fun e => if e.1 == g then (e.1, e.2.filter (fun c => c != ch)) else e)⟩

/-- The per-connection state of a ChatConsumer instance: its channel name,
the authenticated user of the scope, and the two group-name attributes the
handlers set.  `accepted` records whether `accept()` ran. -/
structure ChatConn where
  channel : Nat
  user : Option Nat
  user_group_name : Option Group
  conversation_group_name : Option Group
  accepted : Bool
deriving DecidableEq, Repr

/-- `ChatConsumer.connect`: an anonymous or missing scope user is refused
by `close()` before any `group_add`; an authenticated user joins the
`user_{id}` group and the connection is accepted. -/
def chat_connect (user : Option Nat) (channel : Nat) (reg : Registry) :
    ChatConn × Registry :=
  match user with
  | none =>
    ({ channel := channel, user := none, user_group_name := none,
       conversation_group_name := none, accepted := false }, reg)
  | some u =>
    let g := userGroup u
    ({ channel := channel, user := some u, user_group_name := some g,
       conversation_group_name := none, accepted := true },
     reg.groupAdd g channel)

/-- `ChatConsumer.disconnect`: discard the channel from the user group when
`user_group_name` was set.  No other group is discarded. -/
def chat_disconnect (conn : ChatConn) (reg : Registry) : Registry :=
  match conn.user_group_name with
  | some g => reg.groupDiscard g conn.channel
  | none => reg

/-- The loop body of the `send_message` branch: for each participant in
order, create a SENT receipt when the participant is not the sender, then
`group_send` the `chat_message` and `conversation_update` events to the
participant user group. -/
def sendLoop (user message_id conversation_id : Nat) (conversation : Conversation)
    (db : DB) : List Nat → DB × List Event
  | [] => (db, [])
  | participant :: rest =>
    let db₁ :=
      if participant ≠ user then
        create_message_receipt db message_id participant .SENT
      else db
    let evs : List Event :=
      [Event.chatMessage (userGroup participant) message_id conversation_id user,
       Event.conversationUpdate (userGroup participant) conversation.id
         conversation.updated_at message_id]
    let r := sendLoop user message_id conversation_id conversation db₁ rest
    (r.1, evs ++ r.2)

/-- The `send_message` branch of `ChatConsumer.receive`: persist via
`create_message`; when that succeeded, refetch the conversation and fan the
two events out to every participant while creating the SENT receipts. -/
def send_message (db : DB) (user conversation_id : Nat)
    (content message_type : String) : DB × List Event :=
  match create_message db conversation_id user content message_type with
  | (db₀, none) => (db₀, [])
  | (db₁, some message) =>
    match db₁.getConversation conversation_id with
    | none => (db₁, [])
    | some conversation =>
      sendLoop user message.id conversation_id conversation db₁ conversation.participants

/-- The `mark_as_read` branch of `ChatConsumer.receive`: when the message
exists (whether or not the requester authored it), upsert a READ receipt
for the requesting user and notify the sender user group. -/
def mark_as_read (db : DB) (user message_id : Nat) : DB × List Event :=
  match mark_message_as_read db user message_id with
  | (db₁, none) => (db₁, [])
  | (db₁, some message) =>
    let db₂ := create_message_receipt db₁ message.id user .READ
    (db₂,
     [Event.messageRead (userGroup message.sender) message_id message.conversation user])

/-- The `join_conversation` branch of `ChatConsumer.receive`: authorized
joins add the channel to the conversation group and mark unread messages
as delivered; unauthorized joins do nothing. -/
def join_conversation (db : DB) (conn : ChatConn) (reg : Registry)
    (conversation_id : Nat) : DB × ChatConn × Registry :=
  match conn.user with
  | none => (db, conn, reg)
  | some u =>
    if user_in_conversation db u conversation_id then
      let g := conversationGroup conversation_id
      ((mark_messages_as_delivered db u conversation_id).1,
       { conn with conversation_group_name := some g },
       reg.groupAdd g conn.channel)
    else (db, conn, reg)

/-- The database-effect alphabet of the receipt-bearing client actions. -/
inductive Op : Type
  | send (user conversation_id : Nat) (content message_type : String)
  | markRead (user message_id : Nat)
  | join (user conversation_id : Nat)
deriving DecidableEq, Repr

/-- The database effect of one client action. -/
def step (db : DB) : Op → DB
  | .send u cid content mt => (send_message db u cid content mt).1
  | .markRead u mid => (mark_as_read db u mid).1
  | .join u cid =>
    if user_in_conversation db u cid then (mark_messages_as_delivered db u cid).1
    else db

/-- The database effect of a sequence of client actions. -/
def run (db : DB) (ops : List Op) : DB :=
  ops.foldl step db

/-- A READ receipt held by someone other than the sender implies the
message read flag is set. -/
def ReadInvP (rs : List MessageReceipt) (ms : List Message) : Prop :=
  ∀ r ∈ rs, r.status = ReceiptStatus.READ →
    ∀ m ∈ ms, m.id = r.message → m.sender ≠ r.recipient → m.is_read = true

instance (rs : List MessageReceipt) (ms : List Message) : Decidable (ReadInvP rs ms) := by
  unfold ReadInvP; infer_instance

/-- State invariant of the messaging database: message ids are below the
allocator and pairwise distinct, receipts only reference allocated ids,
and `ReadInvP` relates receipts to the read flags. -/
def DB.Inv (db : DB) : Prop :=
  (∀ m ∈ db.messages, m.id < db.nextMessageId) ∧
  (∀ r ∈ db.receipts, r.message < db.nextMessageId) ∧
  db.messages.Pairwise (fun m₁ m₂ => m₁.id ≠ m₂.id) ∧
  ReadInvP db.receipts db.messages

instance (db : DB) : Decidable db.Inv := by
  unfold DB.Inv; infer_instance

/-- `Notification` of notifications/models.py, with the fields the claims
are about (remaining payload fields of the row do not interact with any
claim and are omitted from the record). -/
structure Notification where
  id : Nat
  recipient : Nat
  notification_type : String
  is_read : Bool
  is_email_sent : Bool
  is_push_sent : Bool
  created_at : Nat
deriving DecidableEq, Repr

/-- `NotificationPreference` of notifications/models.py: master toggles and
the per-category booleans, all defaulting to true.  The model field
`matches` is spelled `matches'` here because `matches` is a Lean keyword. -/
structure NotificationPreference where
  user : Nat
  receive_email : Bool
  receive_push : Bool
  matches' : Bool
  messages : Bool
  likes : Bool
  events : Bool
  subscription : Bool
  system : Bool
deriving DecidableEq, Repr

/-- The row `NotificationPreference.objects.get_or_create(user=...)`
creates when absent: every boolean field takes its model default true. -/
def defaultPreference (user : Nat) : NotificationPreference :=
  { user := user, receive_email := true, receive_push := true, matches' := true,
    messages := true, likes := true, events := true, subscription := true,
    system := true }

/-- Python `getattr(preferences, name, True)` over the boolean attributes a
`NotificationPreference` instance carries; any other attribute name falls
back to the default true.  In particular the lowercased type names
`match`, `message`, `like` and `event` name no attribute of the model. -/
def NotificationPreference.getattrOrTrue (p : NotificationPreference)
    (name : String) : Bool :=
  if name = "receive_email" then p.receive_email
  else if name = "receive_push" then p.receive_push
  else if name = "matches" then p.matches'
  else if name = "messages" then p.messages
  else if name = "likes" then p.likes
  else if name = "events" then p.events
  else if name = "subscription" then p.subscription
  else if name = "system" then p.system
  else true

/-- ASCII lowercase of one character, as Python `str.lower` acts on the
uppercase type names used by the service. -/
def lowerChar (c : Char) : Char :=
  if 65 ≤ c.toNat ∧ c.toNat ≤ 90 then Char.ofNat (c.toNat + 32) else c

/-- Python `notification_type.lower()` for the ASCII type names. -/
def pyLower (s : String) : String := String.mk (s.data.map lowerChar)

/-- `DeviceToken` of notifications/models.py: unique on the raw token. -/
structure DeviceToken where
  user : Nat
  token : String
  platform : String
  device_name : Option String
  is_active : Bool
deriving DecidableEq, Repr

/-- The notifications database state. -/
structure NotifDB where
  users : List Nat
  notifications : List Notification
  preferences : List NotificationPreference
  deviceTokens : List DeviceToken
  nextNotificationId : Nat
  now : Nat
deriving DecidableEq, Repr

/-- `NotificationPreference.objects.get_or_create(user=recipient)`:
the existing row, or a freshly inserted all-default row. -/
def getOrCreatePreference (ndb : NotifDB) (user : Nat) :
    NotificationPreference × NotifDB :=
  match ndb.preferences.find? (fun p => p.user == user) with
  | some p => (p, ndb)
  | none =>
    (defaultPreference user,
     { ndb with preferences := ndb.preferences ++ [defaultPreference user] })

/-- The active device tokens of a user, as filtered by
`NotificationService.send_push_notification`. -/
def activeTokens (ndb : NotifDB) (user : Nat) : List DeviceToken :=
  ndb.deviceTokens.filter (fun t => t.user == user && t.is_active)

/-- The outcome of `NotificationService.send_notification`: the updated
database, the created row when one was created, and whether an email or a
push delivery was attempted. -/
structure SendResult where
  db : NotifDB
  notification : Option Notification
  email_attempted : Bool
  push_attempted : Bool
deriving DecidableEq, Repr

/-- `NotificationService.send_notification`: resolve the recipient,
lazily create the preference row, consult
`getattr(preferences, notification_type.lower(), True)`, abort when that
is false, otherwise persist the Notification and attempt email and push
delivery under the master toggles.  Push delivery to zero active tokens is
a no-op; otherwise the (simulated) provider call succeeds and the sent
flags are recorded on the row. -/
def send_notification (ndb : NotifDB) (recipient_id : Nat)
    (notification_type : String) (send_email send_push : Bool) : SendResult :=
  if recipient_id ∈ ndb.users then
    let pr := getOrCreatePreference ndb recipient_id
    let preferences := pr.1
    let ndb₁ := pr.2
    let should_send := preferences.getattrOrTrue (pyLower notification_type)
    if !should_send then
      { db := ndb₁, notification := none, email_attempted := false,
        push_attempted := false }
    else
      let email_attempted := send_email && preferences.receive_email
      let push_attempted := send_push && preferences.receive_push
      let push_sent := push_attempted && !(activeTokens ndb₁ recipient_id).isEmpty
      let notification : Notification :=
        { id := ndb₁.nextNotificationId, recipient := recipient_id,
          notification_type := notification_type, is_read := false,
          is_email_sent := email_attempted, is_push_sent := push_sent,
          created_at := ndb₁.now }
      { db := { ndb₁ with
                  notifications := ndb₁.notifications ++ [notification],
                  nextNotificationId := ndb₁.nextNotificationId + 1 },
        notification := some notification,
        email_attempted := email_attempted,
        push_attempted := push_attempted }
  else
    { db := ndb, notification := none, email_attempted := false,
      push_attempted := false }

/-- `NotificationService.register_device`: resolve the user, then
`get_or_create` on the raw token; an existing row is reassigned to the new
owner, updated and reactivated (last-registration-wins). -/
def register_device (ndb : NotifDB) (user_id : Nat) (token platform : String)
    (device_name : Option String) : NotifDB × Option DeviceToken :=
  if user_id ∈ ndb.users then
    match ndb.deviceTokens.find? (fun t => t.token == token) with
    | none =>
      let t : DeviceToken :=
        { user := user_id, token := token, platform := platform,
          device_name := device_name, is_active := true }
      ({ ndb with deviceTokens := ndb.deviceTokens ++ [t] }, some t)
    | some _ =>
      let upd := fun (t : DeviceToken) =>
        if t.token == token then
          { t with
            user := user_id,
            platform := platform,
            device_name := (match device_name with
              | some d => some d
              | none => t.device_name),
            is_active := true }
        else t
      ({ ndb with deviceTokens := ndb.deviceTokens.map upd },
       (ndb.deviceTokens.map upd).find? (fun t => t.token == token))
  else (ndb, none)

/-- `NotificationService.unregister_device`: deactivate the row when the
token is known, otherwise change nothing and report failure. -/
def unregister_device (ndb : NotifDB) (token : String) : NotifDB × Bool :=
  match ndb.deviceTokens.find? (fun t => t.token == token) with
  | none => (ndb, false)
  | some _ =>
    ({ ndb with deviceTokens := ndb.deviceTokens.map (fun t =>
        if t.token == token then { t with is_active := false } else t) }, true)

/-- The descending creation-time order used by `order_by('-created_at')`. -/
def createdDesc (a b : Notification) : Prop := b.created_at ≤ a.created_at

instance : DecidableRel createdDesc := fun a b =>
  inferInstanceAs (Decidable (b.created_at ≤ a.created_at))

instance : IsTotal Notification createdDesc :=
  ⟨fun a b => Nat.le_total b.created_at a.created_at⟩

instance : IsTrans Notification createdDesc :=
  ⟨fun _ _ _ hab hbc => Nat.le_trans hbc hab⟩

/-- The unread notifications of a user as filtered by the consumer. -/
def unreadOf (ndb : NotifDB) (user : Nat) : List Notification :=
  ndb.notifications.filter (fun n => n.recipient == user && !n.is_read)

/-- `NotificationConsumer.get_unread_notifications`:
`filter(recipient=user, is_read=False).order_by('-created_at')[:20]`.
The sort is modelled by insertion sort under `createdDesc`, a valid
refinement of the ORM ordering (ties are left unspecified by the source). -/
def get_unread_notifications (ndb : NotifDB) (user : Nat) : List Notification :=
  (List.insertionSort createdDesc (unreadOf ndb user)).take 20

/-- The client-directed sends of NotificationConsumer relevant here. -/
inductive NotifEvent : Type
  | unreadNotifications (notifications : List Notification) (count : Nat)
deriving DecidableEq, Repr

/-- `NotificationConsumer.connect`: refuse an anonymous user before any
group join; otherwise join `notifications_{id}`, accept, and send the
unread batch only when it is nonempty, with `count` set to its length. -/
def notif_connect (ndb : NotifDB) (user : Option Nat) (channel : Nat)
    (reg : Registry) : Registry × Bool × List NotifEvent :=
  match user with
  | none => (reg, false, [])
  | some u =>
    let reg' := reg.groupAdd (notificationsGroup u) channel
    let unread := get_unread_notifications ndb u
    if unread.isEmpty then (reg', true, [])
    else (reg', true, [NotifEvent.unreadNotifications unread unread.length])

/-! ### Generic list lemmas -/

theorem find?_map_key {α : Type} (f : α → α) (p : α → Bool)
    (hp : ∀ a, p (f a) = p a) :
    ∀ l : List α, (l.map f).find? p = (l.find? p).map f
  | [] => rfl
  | a :: l => by
    cases h : p a with
    | true =>
      rw [List.map_cons, List.find?_cons_of_pos _ (by rw [hp a, h]),
        List.find?_cons_of_pos _ h]
      rfl
    | false =>
      rw [List.map_cons, List.find?_cons_of_neg _ (by simp [hp a, h]),
        List.find?_cons_of_neg _ (by simp [h])]
      exact find?_map_key f p hp l

theorem find?_append_none {α : Type} {p : α → Bool} :
    ∀ {l₁ : List α}, l₁.find? p = none → ∀ l₂ : List α,
      (l₁ ++ l₂).find? p = l₂.find? p
  | [], _, _ => rfl
  | a :: l₁, h, l₂ => by
    cases ha : p a with
    | true => rw [List.find?_cons_of_pos _ ha] at h; exact absurd h (by simp)
    | false =>
      rw [List.find?_cons_of_neg _ (by simp [ha])] at h
      rw [List.cons_append, List.find?_cons_of_neg _ (by simp [ha])]
      exact find?_append_none h l₂

theorem find?_append_some {α : Type} {p : α → Bool} {x : α} :
    ∀ {l₁ : List α}, l₁.find? p = some x → ∀ l₂ : List α,
      (l₁ ++ l₂).find? p = some x
  | [], h, _ => by exact absurd h (by simp)
  | a :: l₁, h, l₂ => by
    cases ha : p a with
    | true =>
      rw [List.find?_cons_of_pos _ ha] at h
      rw [List.cons_append, List.find?_cons_of_pos _ ha]
      exact h
    | false =>
      rw [List.find?_cons_of_neg _ (by simp [ha])] at h
      rw [List.cons_append, List.find?_cons_of_neg _ (by simp [ha])]
      exact find?_append_some h l₂

theorem sublist_flatMap_of_mem {α β : Type} (f : α → List β) :
    ∀ (l : List α) (x : α), x ∈ l → (f x).Sublist (l.flatMap f)
  | a :: l, x, h => by
    rcases List.mem_cons.mp h with h | h
    · subst h; simpa [List.flatMap_cons] using List.sublist_append_left _ _
    · simpa [List.flatMap_cons] using
        List.Sublist.trans (sublist_flatMap_of_mem f l x h)
          (List.sublist_append_right _ _)

theorem countP_flatMap_zero {α β : Type} (f : α → List β) (p : β → Bool) :
    ∀ (l : List α), (∀ y ∈ l, (f y).countP p = 0) → (l.flatMap f).countP p = 0
  | [], _ => rfl
  | a :: l, h => by
    rw [List.flatMap_cons, List.countP_append, h a (List.mem_cons_self a l),
      countP_flatMap_zero f p l (fun y hy => h y (List.mem_cons_of_mem a hy))]

theorem countP_flatMap_one {α β : Type} (f : α → List β) (p : β → Bool) :
    ∀ (l : List α) (x : α), l.Nodup → x ∈ l → (f x).countP p = 1 →
      (∀ y ∈ l, y ≠ x → (f y).countP p = 0) → (l.flatMap f).countP p = 1
  | a :: l, x, hnd, hx, hone, hzero => by
    rw [List.flatMap_cons, List.countP_append]
    rcases List.mem_cons.mp hx with h | h
    · subst h
      rw [hone, countP_flatMap_zero f p l (fun y hy =>
        hzero y (List.mem_cons_of_mem x hy)
          (fun hyx => (List.nodup_cons.mp hnd).1 (hyx ▸ hy)))]
    · rw [hzero a (List.mem_cons_self a l)
        (fun hax => (List.nodup_cons.mp hnd).1 (hax ▸ h)),
        countP_flatMap_one f p l x (List.nodup_cons.mp hnd).2 h hone
          (fun y hy => hzero y (List.mem_cons_of_mem a hy))]

theorem eq_of_mem_pairwise_ne {α : Type} {key : α → Nat} :
    ∀ {l : List α}, l.Pairwise (fun a b => key a ≠ key b) →
      ∀ {x y : α}, x ∈ l → y ∈ l → key x = key y → x = y
  | a :: l, h, x, y, hx, hy, hk => by
    have h1 := (List.pairwise_cons.mp h).1
    have h2 := (List.pairwise_cons.mp h).2
    rcases List.mem_cons.mp hx with hxa | hxl
    · rcases List.mem_cons.mp hy with hya | hyl
      · exact hxa.trans hya.symm
      · exact absurd (hxa ▸ hk) (h1 y hyl)
    · rcases List.mem_cons.mp hy with hya | hyl
      · exact absurd (hya ▸ hk).symm (h1 x hxl)
      · exact eq_of_mem_pairwise_ne h2 hxl hyl hk

/-! ### Receipt upsert lemmas -/

/-- The receipt-row key predicate used by `DB.findReceipt`. -/
def receiptKey (message_id recipient : Nat) (r : MessageReceipt) : Bool :=
  r.message == message_id && r.recipient == recipient

theorem findReceipt_eq (db : DB) (message_id recipient : Nat) :
    db.findReceipt message_id recipient =
      db.receipts.find? (receiptKey message_id recipient) := rfl

theorem receiptKey_set_status (message_id recipient a b : Nat)
    (st : ReceiptStatus) (r : MessageReceipt) :
    receiptKey a b (if r.message == message_id && r.recipient == recipient then
      { r with status := st } else r) = receiptKey a b r := by
  unfold receiptKey
  split <;> rfl

theorem create_message_receipt_frame (db : DB) (mid u : Nat) (st : ReceiptStatus) :
    (create_message_receipt db mid u st).messages = db.messages ∧
    (create_message_receipt db mid u st).conversations = db.conversations ∧
    (create_message_receipt db mid u st).nextMessageId = db.nextMessageId ∧
    (create_message_receipt db mid u st).now = db.now := by
  unfold create_message_receipt
  cases db.findReceipt mid u with
  | none => exact ⟨rfl, rfl, rfl, rfl⟩
  | some r =>
    by_cases h : r.status = st
    · simp [h]
    · simp [h]

theorem receiptStatus_create_self (db : DB) (mid u : Nat) (st : ReceiptStatus) :
    (create_message_receipt db mid u st).receiptStatus mid u = some st := by
  unfold create_message_receipt
  cases hf : db.findReceipt mid u with
  | none =>
    show ((db.receipts ++ [({ message := mid, recipient := u, status := st } :
        MessageReceipt)]).find? (receiptKey mid u)).map (fun r => r.status) = some st
    rw [find?_append_none (findReceipt_eq db mid u ▸ hf) _]
    simp [List.find?, receiptKey]
  | some r =>
    have hk : receiptKey mid u r = true :=
      List.find?_some (findReceipt_eq db mid u ▸ hf)
    by_cases h : r.status = st
    · show (if r.status ≠ st then _ else db).receiptStatus mid u = some st
      rw [if_neg (by simp [h])]
      show (db.receipts.find? (receiptKey mid u)).map (fun r => r.status) = some st
      rw [← findReceipt_eq, hf]
      simp [h]
    · show (if r.status ≠ st then _ else db).receiptStatus mid u = some st
      rw [if_pos (by simp [h])]
      show ((db.receipts.map _).find? (receiptKey mid u)).map (fun r => r.status) = some st
      rw [find?_map_key _ _ (receiptKey_set_status mid u mid u st),
        ← findReceipt_eq, hf]
      simp only [Option.map_some']
      unfold receiptKey at hk
      rw [if_pos hk]

theorem receiptStatus_create_other (db : DB) (mid u a b : Nat) (st : ReceiptStatus)
    (h : ¬(a = mid ∧ b = u)) :
    (create_message_receipt db mid u st).receiptStatus a b =
      db.receiptStatus a b := by
  have hkey : ∀ r : MessageReceipt, r.message = a → r.recipient = b →
      (r.message == mid && r.recipient == u) = false := by
    intro r h1 h2
    simp only [Bool.and_eq_true, beq_iff_eq, Bool.eq_false_iff, ne_eq, h1, h2]
    omega
  unfold create_message_receipt
  cases hf : db.findReceipt mid u with
  | none =>
    show ((db.receipts ++ [({ message := mid, recipient := u, status := st } :
        MessageReceipt)]).find? (receiptKey a b)).map (fun r => r.status) =
      (db.receipts.find? (receiptKey a b)).map (fun r => r.status)
    cases hab : db.receipts.find? (receiptKey a b) with
    | none =>
      rw [find?_append_none hab]
      have hk : receiptKey a b { message := mid, recipient := u, status := st } = false := by
        unfold receiptKey
        simp only [Bool.and_eq_true, beq_iff_eq, Bool.eq_false_iff, ne_eq]
        omega
      simp [List.find?, hk]
    | some x => rw [find?_append_some hab]
  | some r =>
    by_cases hst : r.status = st
    · show (if r.status ≠ st then _ else db).receiptStatus a b = db.receiptStatus a b
      rw [if_neg (by simp [hst])]
    · show (if r.status ≠ st then _ else db).receiptStatus a b = db.receiptStatus a b
      rw [if_pos (by simp [hst])]
      show ((db.receipts.map _).find? (receiptKey a b)).map (fun r => r.status) =
        (db.receipts.find? (receiptKey a b)).map (fun r => r.status)
      rw [find?_map_key _ _ (receiptKey_set_status mid u a b st)]
      cases hab : db.receipts.find? (receiptKey a b) with
      | none => rfl
      | some x =>
        have hk : receiptKey a b x = true := List.find?_some hab
        have hx : x.message = a ∧ x.recipient = b := by
          unfold receiptKey at hk
          simpa using hk
        simp only [Option.map_some']
        rw [hkey x hx.1 hx.2]
        simp

theorem mem_receipts_create (db : DB) (mid u : Nat) (st : ReceiptStatus) :
    ∀ r' ∈ (create_message_receipt db mid u st).receipts,
      r' ∈ db.receipts ∨ (r'.message = mid ∧ r'.recipient = u ∧ r'.status = st) := by
  unfold create_message_receipt
  cases hf : db.findReceipt mid u with
  | none =>
    intro r' hr'
    rcases List.mem_append.mp hr' with h | h
    · exact Or.inl h
    · right
      rcases List.mem_singleton.mp h with rfl
      exact ⟨rfl, rfl, rfl⟩
  | some r =>
    by_cases hst : r.status = st
    · intro r' hr'
      simp only [ne_eq, hst, not_true_eq_false, ite_false] at hr'
      exact Or.inl hr'
    · intro r' hr'
      simp only [ne_eq, hst, not_false_eq_true, ite_true] at hr'
      rcases List.mem_map.mp hr' with ⟨r₀, hr₀, rfl⟩
      by_cases hk : (r₀.message == mid && r₀.recipient == u) = true
      · right
        have h1 : r₀.message = mid ∧ r₀.recipient = u := by simpa using hk
        rw [if_pos hk]
        exact ⟨h1.1, h1.2, rfl⟩
      · left
        rw [if_neg hk]
        exact hr₀

/-! ### Monotonicity of single receipt upserts -/

theorem rank_le_read (st : ReceiptStatus) :
    st.rank ≤ ReceiptStatus.READ.rank := by
  cases st <;> simp [ReceiptStatus.rank]

theorem eq_read_of_rank_le (st : ReceiptStatus)
    (h : ReceiptStatus.READ.rank ≤ st.rank) : st = ReceiptStatus.READ := by
  cases st <;> simp_all [ReceiptStatus.rank]

theorem mono_create_read (db : DB) (mid u a b : Nat) (st : ReceiptStatus)
    (h : db.receiptStatus a b = some st) :
    ∃ st', (create_message_receipt db mid u .READ).receiptStatus a b = some st' ∧
      st.rank ≤ st'.rank := by
  by_cases hab : a = mid ∧ b = u
  · rcases hab with ⟨rfl, rfl⟩
    exact ⟨.READ, receiptStatus_create_self db a b .READ, rank_le_read st⟩
  · exact ⟨st, (receiptStatus_create_other db mid u a b .READ hab).trans h, le_rfl⟩

theorem mono_create_delivered (db : DB) (mid u a b : Nat) (st : ReceiptStatus)
    (h : db.receiptStatus a b = some st)
    (hnr : db.receiptStatus mid u ≠ some ReceiptStatus.READ) :
    ∃ st', (create_message_receipt db mid u .DELIVERED).receiptStatus a b = some st' ∧
      st.rank ≤ st'.rank := by
  by_cases hab : a = mid ∧ b = u
  · rcases hab with ⟨rfl, rfl⟩
    refine ⟨.DELIVERED, receiptStatus_create_self db a b .DELIVERED, ?_⟩
    cases st with
    | READ => exact absurd h hnr
    | SENT => simp [ReceiptStatus.rank]
    | DELIVERED => simp [ReceiptStatus.rank]
  · exact ⟨st, (receiptStatus_create_other db mid u a b .DELIVERED hab).trans h, le_rfl⟩

theorem mono_create_fresh (db : DB) (mid u a b : Nat) (stn st : ReceiptStatus)
    (h : db.receiptStatus a b = some st) (hmid : a ≠ mid) :
    ∃ st', (create_message_receipt db mid u stn).receiptStatus a b = some st' ∧
      st.rank ≤ st'.rank :=
  ⟨st, (receiptStatus_create_other db mid u a b stn (fun hc => hmid hc.1)).trans h,
    le_rfl⟩

/-! ### Invariant preservation of single updates -/

theorem readInvP_create_not_read {db : DB} {ms : List Message} (mid u : Nat)
    (st : ReceiptStatus) (h : ReadInvP db.receipts ms) (hst : st ≠ ReceiptStatus.READ) :
    ReadInvP (create_message_receipt db mid u st).receipts ms := by
  intro r' hr' hrst m hm hid hs
  rcases mem_receipts_create db mid u st r' hr' with h1 | h1
  · exact h r' h1 hrst m hm hid hs
  · exact absurd (h1.2.2 ▸ hrst) hst

theorem readInvP_create_read {db : DB} {ms : List Message} (mid u : Nat)
    (h : ReadInvP db.receipts ms)
    (hnew : ∀ m ∈ ms, m.id = mid → m.sender ≠ u → m.is_read = true) :
    ReadInvP (create_message_receipt db mid u .READ).receipts ms := by
  intro r' hr' hrst m hm hid hs
  rcases mem_receipts_create db mid u .READ r' hr' with h1 | h1
  · exact h r' h1 hrst m hm hid hs
  · exact hnew m hm (h1.1 ▸ hid) (h1.2.1 ▸ hs)

theorem bound_create {db : DB} {N : Nat} (mid u : Nat) (st : ReceiptStatus)
    (h : ∀ r ∈ db.receipts, r.message < N) (hmid : mid < N) :
    ∀ r' ∈ (create_message_receipt db mid u st).receipts, r'.message < N := by
  intro r' hr'
  rcases mem_receipts_create db mid u st r' hr' with h1 | h1
  · exact h r' h1
  · rw [h1.1]; exact hmid

/-! ### Lemmas about the read-flag update -/

theorem setRead_read_of_id {ms : List Message} (mid : Nat) :
    ∀ m' ∈ setRead mid ms, m'.id = mid → m'.is_read = true := by
  intro m' hm' hid
  rcases List.mem_map.mp hm' with ⟨m, hm, rfl⟩
  by_cases h2 : (m.id == mid) = true
  · simp only [if_pos h2]
  · rw [if_neg h2] at hid
    exact absurd hid (by simpa using h2)

theorem readInvP_setRead {rs : List MessageReceipt} {ms : List Message} (mid : Nat)
    (h : ReadInvP rs ms) : ReadInvP rs (setRead mid ms) := by
  intro r hr hst m' hm' hid hs
  rcases List.mem_map.mp hm' with ⟨m, hm, rfl⟩
  by_cases h2 : (m.id == mid) = true
  · simp only [if_pos h2]
  · rw [if_neg h2] at hid hs ⊢
    exact h r hr hst m hm hid hs

theorem bound_setRead {ms : List Message} {N : Nat} (mid : Nat)
    (h : ∀ m ∈ ms, m.id < N) : ∀ m' ∈ setRead mid ms, m'.id < N := by
  intro m' hm'
  rcases List.mem_map.mp hm' with ⟨m, hm, rfl⟩
  split
  · exact h m hm
  · exact h m hm

theorem pairwise_setRead {ms : List Message} (mid : Nat)
    (h : ms.Pairwise (fun a b => a.id ≠ b.id)) :
    (setRead mid ms).Pairwise (fun a b => a.id ≠ b.id) := by
  unfold setRead
  rw [List.pairwise_map]
  refine h.imp ?_
  intro a b hab
  have ha : (if a.id == mid then { a with is_read := true } else a).id = a.id := by
    split <;> rfl
  have hb : (if b.id == mid then { b with is_read := true } else b).id = b.id := by
    split <;> rfl
  rw [ha, hb]
  exact hab

/-! ### Lookup helpers -/

theorem getMessage_id {db : DB} {mid : Nat} {m : Message}
    (h : db.getMessage mid = some m) : m.id = mid := by
  have := List.find?_some h
  simpa using this

theorem getMessage_mem {db : DB} {mid : Nat} {m : Message}
    (h : db.getMessage mid = some m) : m ∈ db.messages :=
  List.mem_of_find?_eq_some h

theorem getConversation_id {db : DB} {cid : Nat} {c : Conversation}
    (h : db.getConversation cid = some c) : c.id = cid := by
  have := List.find?_some h
  simpa using this

theorem receiptStatus_message_eq {db : DB} {a b : Nat} {st : ReceiptStatus}
    (h : db.receiptStatus a b = some st) :
    ∃ r ∈ db.receipts, r.message = a ∧ r.recipient = b ∧ r.status = st := by
  unfold DB.receiptStatus at h
  rcases Option.map_eq_some'.mp h with ⟨r, hr, hst⟩
  have hk := List.find?_some hr
  have hmem := List.mem_of_find?_eq_some hr
  refine ⟨r, hmem, ?_, ?_, hst⟩
  · simpa using (Bool.and_eq_true _ _).mp hk |>.1
  · simpa using (Bool.and_eq_true _ _).mp hk |>.2

/-! ### The mark_as_read action -/

theorem mark_message_as_read_found {db : DB} {user mid : Nat} {m : Message}
    (hm : db.getMessage mid = some m) :
    mark_message_as_read db user mid =
      (if m.sender ≠ user then
        ({ db with messages := setRead mid db.messages },
         some { m with is_read := true })
      else (db, some m)) := by
  unfold mark_message_as_read
  rw [hm]

theorem mark_as_read_not_found {db : DB} {user mid : Nat}
    (h : db.getMessage mid = none) : mark_as_read db user mid = (db, []) := by
  unfold mark_as_read mark_message_as_read
  rw [h]

theorem mark_as_read_other {db : DB} {user mid : Nat} {m : Message}
    (hm : db.getMessage mid = some m) (hs : m.sender ≠ user) :
    mark_as_read db user mid =
      (create_message_receipt { db with messages := setRead mid db.messages }
         m.id user .READ,
       [Event.messageRead (userGroup m.sender) mid m.conversation user]) := by
  unfold mark_as_read
  rw [mark_message_as_read_found hm, if_pos hs]

theorem mark_as_read_self {db : DB} {user mid : Nat} {m : Message}
    (hm : db.getMessage mid = some m) (hs : m.sender = user) :
    mark_as_read db user mid =
      (create_message_receipt db m.id user .READ,
       [Event.messageRead (userGroup m.sender) mid m.conversation user]) := by
  unfold mark_as_read
  rw [mark_message_as_read_found hm, if_neg (by simp [hs])]

theorem step_markRead_mono (db : DB) (u mid : Nat) (h : db.Inv) :
    (mark_as_read db u mid).1.Inv ∧
    ∀ a b st, db.receiptStatus a b = some st →
      ∃ st', (mark_as_read db u mid).1.receiptStatus a b = some st' ∧
        st.rank ≤ st'.rank := by
  obtain ⟨h1, h2, h3, h4⟩ := h
  cases hm : db.getMessage mid with
  | none =>
    rw [mark_as_read_not_found hm]
    exact ⟨⟨h1, h2, h3, h4⟩, fun a b st hst => ⟨st, hst, le_rfl⟩⟩
  | some m =>
    have hmem : m ∈ db.messages := getMessage_mem hm
    have hid : m.id = mid := getMessage_id hm
    have hmidN : m.id < db.nextMessageId := h1 m hmem
    by_cases hs : m.sender ≠ u
    · rw [mark_as_read_other hm hs]
      set db₁ : DB := { db with messages := setRead mid db.messages } with hdb₁
      have hfr := create_message_receipt_frame db₁ m.id u .READ
      constructor
      · refine ⟨?_, ?_, ?_, ?_⟩
        · rw [hfr.1, hfr.2.2.1]
          exact bound_setRead mid h1
        · rw [hfr.2.2.1]
          exact bound_create m.id u .READ h2 hmidN
        · rw [hfr.1]
          exact pairwise_setRead mid h3
        · rw [hfr.1]
          refine readInvP_create_read m.id u (readInvP_setRead mid h4) ?_
          intro m' hm' hid' _
          exact setRead_read_of_id mid m' hm' (hid ▸ hid')
      · intro a b st hst
        exact mono_create_read db₁ m.id u a b st hst
    · rw [mark_as_read_self hm (not_not.mp hs)]
      have hfr := create_message_receipt_frame db m.id u .READ
      constructor
      · refine ⟨?_, ?_, ?_, ?_⟩
        · rw [hfr.1, hfr.2.2.1]
          exact h1
        · rw [hfr.2.2.1]
          exact bound_create m.id u .READ h2 hmidN
        · rw [hfr.1]
          exact h3
        · rw [hfr.1]
          refine readInvP_create_read m.id u h4 ?_
          intro m' hm' hid' hs'
          have : m' = m := eq_of_mem_pairwise_ne h3 hm' hmem hid'
          exact absurd (this ▸ not_not.mp hs) (this ▸ hs' : m'.sender ≠ u).elim
      · intro a b st hst
        exact mono_create_read db m.id u a b st hst

/-! ### The create_message persistence step -/

/-- The row `create_message` persists on success. -/
def newMessage (db : DB) (cid u : Nat) (content mt : String) : Message :=
  { id := db.nextMessageId, conversation := cid, sender := u, content := content,
    message_type := mt, is_read := false, created_at := db.now }

theorem create_message_none_of_not_found {db : DB} {cid u : Nat}
    {content mt : String} (h : db.getConversation cid = none) :
    create_message db cid u content mt = (db, none) := by
  unfold create_message
  rw [h]

theorem create_message_none_of_not_participant {db : DB} {cid u : Nat}
    {content mt : String} {c : Conversation} (hc : db.getConversation cid = some c)
    (hu : u ∉ c.participants) :
    create_message db cid u content mt = (db, none) := by
  simp [create_message, hc, hu]

theorem create_message_some {db : DB} {cid u : Nat} {content mt : String}
    {c : Conversation} (hc : db.getConversation cid = some c)
    (hu : u ∈ c.participants) :
    create_message db cid u content mt =
      ({ db with
          messages := db.messages ++ [newMessage db cid u content mt],
          conversations := db.conversations.map (fun c' =>
            if c'.id == cid then { c' with updated_at := db.now } else c'),
          nextMessageId := db.nextMessageId + 1 },
       some (newMessage db cid u content mt)) := by
  simp [create_message, hc, hu, newMessage]

theorem getConversation_bump {db : DB} {cid : Nat} {c : Conversation}
    (hc : db.getConversation cid = some c) (now : Nat) :
    (db.conversations.map (fun c' =>
      if c'.id == cid then { c' with updated_at := now } else c')).find?
        (fun c' => c'.id == cid) = some { c with updated_at := now } := by
  have hp : ∀ c' : Conversation,
      ((if c'.id == cid then { c' with updated_at := now } else c').id == cid) =
        (c'.id == cid) := by
    intro c'
    split <;> rfl
  rw [find?_map_key _ _ hp, show db.conversations.find? (fun c' => c'.id == cid) =
    some c from hc, Option.map_some']
  have hk : (c.id == cid) = true := by
    have := List.find?_some (show db.conversations.find? (fun c' => c'.id == cid) =
      some c from hc)
    simpa using this
  rw [if_pos hk]

/-! ### The send_message fan-out loop -/

theorem sendLoop_frame (user nid cid : Nat) (conv : Conversation) :
    ∀ (l : List Nat) (db : DB),
      (sendLoop user nid cid conv db l).1.messages = db.messages ∧
      (sendLoop user nid cid conv db l).1.conversations = db.conversations ∧
      (sendLoop user nid cid conv db l).1.nextMessageId = db.nextMessageId := by
  intro l
  induction l with
  | nil => intro db; exact ⟨rfl, rfl, rfl⟩
  | cons p rest ih =>
    intro db
    simp only [sendLoop]
    obtain ⟨a1, a2, a3⟩ :=
      ih (if p ≠ user then create_message_receipt db nid p .SENT else db)
    rw [a1, a2, a3]
    split
    · have hfr := create_message_receipt_frame db nid p .SENT
      exact ⟨hfr.1, hfr.2.1, hfr.2.2.1⟩
    · exact ⟨rfl, rfl, rfl⟩

theorem sendLoop_events (user nid cid : Nat) (conv : Conversation) :
    ∀ (l : List Nat) (db : DB),
      (sendLoop user nid cid conv db l).2 =
        l.flatMap (fun p =>
          [Event.chatMessage (userGroup p) nid cid user,
           Event.conversationUpdate (userGroup p) conv.id conv.updated_at nid]) := by
  intro l
  induction l with
  | nil => intro db; rfl
  | cons p rest ih =>
    intro db
    simp only [sendLoop, List.flatMap_cons]
    rw [ih]

theorem sendLoop_receiptStatus_other (user nid cid : Nat) (conv : Conversation) :
    ∀ (l : List Nat) (db : DB) (a b : Nat), (a ≠ nid ∨ b ∉ l) →
      (sendLoop user nid cid conv db l).1.receiptStatus a b =
        db.receiptStatus a b := by
  intro l
  induction l with
  | nil => intro db a b _; rfl
  | cons p rest ih =>
    intro db a b hab
    simp only [sendLoop]
    have hab' : a ≠ nid ∨ b ∉ rest := by
      rcases hab with h | h
      · exact Or.inl h
      · exact Or.inr (fun hb => h (List.mem_cons_of_mem p hb))
    refine (ih _ a b hab').trans ?_
    split
    · apply receiptStatus_create_other
      rcases hab with h | h
      · exact fun hc => h hc.1
      · exact fun hc => absurd (by rw [hc.2]; exact List.mem_cons_self p rest) h
    · rfl

theorem sendLoop_receiptStatus_sent (user nid cid : Nat) (conv : Conversation) :
    ∀ (l : List Nat) (db : DB), l.Nodup →
      ∀ p ∈ l, p ≠ user →
        (sendLoop user nid cid conv db l).1.receiptStatus nid p = some .SENT := by
  intro l
  induction l with
  | nil => intro db _ p hp; exact absurd hp (List.not_mem_nil p)
  | cons q rest ih =>
    intro db hnd p hp hpu
    simp only [sendLoop]
    rcases List.mem_cons.mp hp with rfl | hp'
    · have hq : p ∉ rest := (List.nodup_cons.mp hnd).1
      refine (sendLoop_receiptStatus_other user nid cid conv rest _ nid p
        (Or.inr hq)).trans ?_
      rw [if_pos hpu]
      exact receiptStatus_create_self db nid p .SENT
    · exact ih _ (List.nodup_cons.mp hnd).2 p hp' hpu

theorem sendLoop_inv (user nid cid : Nat) (conv : Conversation) :
    ∀ (l : List Nat) (db : DB) (N : Nat), nid < N →
      (∀ r ∈ db.receipts, r.message < N) →
      ReadInvP db.receipts db.messages →
      (∀ r ∈ (sendLoop user nid cid conv db l).1.receipts, r.message < N) ∧
      ReadInvP (sendLoop user nid cid conv db l).1.receipts
        (sendLoop user nid cid conv db l).1.messages := by
  intro l
  induction l with
  | nil => intro db N _ hb hr; exact ⟨hb, hr⟩
  | cons p rest ih =>
    intro db N hn hb hr
    simp only [sendLoop]
    apply ih _ N hn
    · split
      · exact bound_create nid p .SENT hb hn
      · exact hb
    · split
      · rw [(create_message_receipt_frame db nid p .SENT).1]
        exact readInvP_create_not_read nid p .SENT hr (by decide)
      · exact hr

theorem readInvP_append_fresh {rs : List MessageReceipt} {ms : List Message}
    {m : Message} {N : Nat} (h : ReadInvP rs ms)
    (hb : ∀ r ∈ rs, r.message < N) (hid : m.id = N) :
    ReadInvP rs (ms ++ [m]) := by
  intro r hr hst m' hm' hid' hs
  rcases List.mem_append.mp hm' with h1 | h1
  · exact h r hr hst m' h1 hid' hs
  · rcases List.mem_singleton.mp h1 with rfl
    have := hb r hr
    exact (show False by omega).elim

theorem dbAfterCreate_getConversation {db : DB} {cid : Nat} {c : Conversation}
    (hc : db.getConversation cid = some c) (ms : List Message) (n : Nat) :
    DB.getConversation
      { db with
        messages := ms,
        conversations := db.conversations.map (fun c' =>
          if c'.id == cid then { c' with updated_at := db.now } else c'),
        nextMessageId := n } cid = some { c with updated_at := db.now } := by
  show (db.conversations.map _).find? _ = _
  exact getConversation_bump hc db.now

theorem send_message_eq_of_some {db : DB} {u cid : Nat} {content mt : String}
    {c : Conversation} (hc : db.getConversation cid = some c)
    (hu : u ∈ c.participants) :
    send_message db u cid content mt =
      sendLoop u db.nextMessageId cid { c with updated_at := db.now }
        { db with
            messages := db.messages ++ [newMessage db cid u content mt],
            conversations := db.conversations.map (fun c' =>
              if c'.id == cid then { c' with updated_at := db.now } else c'),
            nextMessageId := db.nextMessageId + 1 }
        c.participants := by
  simp only [send_message, create_message_some hc hu,
    dbAfterCreate_getConversation hc, newMessage]

theorem step_send_mono (db : DB) (u cid : Nat) (content mt : String)
    (h : db.Inv) :
    (send_message db u cid content mt).1.Inv ∧
    ∀ a b st, db.receiptStatus a b = some st →
      ∃ st', (send_message db u cid content mt).1.receiptStatus a b = some st' ∧
        st.rank ≤ st'.rank := by
  obtain ⟨h1, h2, h3, h4⟩ := h
  cases hc : db.getConversation cid with
  | none =>
    have he : send_message db u cid content mt = (db, []) := by
      simp [send_message, create_message_none_of_not_found hc]
    rw [he]
    exact ⟨⟨h1, h2, h3, h4⟩, fun a b st hst => ⟨st, hst, le_rfl⟩⟩
  | some c =>
    by_cases hu : u ∈ c.participants
    · rw [send_message_eq_of_some hc hu]
      set db₁ : DB := { db with
          messages := db.messages ++ [newMessage db cid u content mt],
          conversations := db.conversations.map (fun c' =>
            if c'.id == cid then { c' with updated_at := db.now } else c'),
          nextMessageId := db.nextMessageId + 1 } with hdb₁
      have hfr := sendLoop_frame u db.nextMessageId cid
        { c with updated_at := db.now } c.participants db₁
      have hinv₁ : ReadInvP db₁.receipts db₁.messages :=
        readInvP_append_fresh h4 h2 rfl
      obtain ⟨hb, hri⟩ := sendLoop_inv u db.nextMessageId cid
        { c with updated_at := db.now } c.participants db₁ (db.nextMessageId + 1)
        (Nat.lt_succ_self _) (fun r hr => Nat.lt_succ_of_lt (h2 r hr)) hinv₁
      constructor
      · refine ⟨?_, ?_, ?_, ?_⟩
        · rw [hfr.1, hfr.2.2]
          intro m hm
          rcases List.mem_append.mp hm with h' | h'
          · exact Nat.lt_succ_of_lt (h1 m h')
          · rcases List.mem_singleton.mp h' with rfl
            exact Nat.lt_succ_self _
        · rw [hfr.2.2]
          exact hb
        · rw [hfr.1]
          refine List.pairwise_append.mpr ⟨h3, List.pairwise_singleton _ _, ?_⟩
          intro m hm m' hm'
          rcases List.mem_singleton.mp hm' with rfl
          exact Nat.ne_of_lt (h1 m hm)
        · exact hri
      · intro a b st hst
        rcases receiptStatus_message_eq hst with ⟨r, hr, hra, _, _⟩
        have ha : a ≠ db.nextMessageId := by
          have := h2 r hr
          omega
        refine ⟨st, ?_, le_rfl⟩
        rw [sendLoop_receiptStatus_other u db.nextMessageId cid
          { c with updated_at := db.now } c.participants db₁ a b (Or.inl ha)]
        exact hst
    · have he : send_message db u cid content mt = (db, []) := by
        simp [send_message, create_message_none_of_not_participant hc hu]
      rw [he]
      exact ⟨⟨h1, h2, h3, h4⟩, fun a b st hst => ⟨st, hst, le_rfl⟩⟩

/-! ### The mark_messages_as_delivered loop -/

theorem deliveredLoop_mono (user : Nat) :
    ∀ (ms : List Message) (db : DB),
      (∀ m ∈ ms, m ∈ db.messages ∧ m.is_read = false ∧ m.sender ≠ user) →
      db.Inv →
      (ms.foldl (fun d m => create_message_receipt d m.id user .DELIVERED) db).Inv ∧
      (ms.foldl (fun d m => create_message_receipt d m.id user .DELIVERED) db).messages
        = db.messages ∧
      (∀ a b st, db.receiptStatus a b = some st →
        ∃ st', (ms.foldl (fun d m =>
            create_message_receipt d m.id user .DELIVERED) db).receiptStatus a b
          = some st' ∧ st.rank ≤ st'.rank) := by
  intro ms
  induction ms with
  | nil => intro db _ h; exact ⟨h, rfl, fun a b st hst => ⟨st, hst, le_rfl⟩⟩
  | cons m rest ih =>
    intro db hms hInv
    simp only [List.foldl_cons]
    have hm := hms m (List.mem_cons_self m rest)
    obtain ⟨h1, h2, h3, h4⟩ := hInv
    have hnr : db.receiptStatus m.id user ≠ some ReceiptStatus.READ := by
      intro hR
      rcases receiptStatus_message_eq hR with ⟨r, hr, hra, hrb, hrs⟩
      have hread := h4 r hr hrs m hm.1 hra.symm (by rw [hrb]; exact hm.2.2)
      rw [hm.2.1] at hread
      exact Bool.false_ne_true hread
    have hfr := create_message_receipt_frame db m.id user .DELIVERED
    have hInv₁ : (create_message_receipt db m.id user .DELIVERED).Inv := by
      refine ⟨?_, ?_, ?_, ?_⟩
      · rw [hfr.1, hfr.2.2.1]; exact h1
      · rw [hfr.2.2.1]; exact bound_create m.id user .DELIVERED h2 (h1 m hm.1)
      · rw [hfr.1]; exact h3
      · rw [hfr.1]
        exact readInvP_create_not_read m.id user .DELIVERED h4 (by decide)
    have hms₁ : ∀ m' ∈ rest,
        m' ∈ (create_message_receipt db m.id user .DELIVERED).messages ∧
        m'.is_read = false ∧ m'.sender ≠ user := by
      intro m' hm'
      have := hms m' (List.mem_cons_of_mem m hm')
      rw [hfr.1]
      exact this
    obtain ⟨i1, i2, i3⟩ := ih _ hms₁ hInv₁
    refine ⟨i1, i2.trans hfr.1, ?_⟩
    intro a b st hst
    obtain ⟨st₁, hst₁, hr₁⟩ := mono_create_delivered db m.id user a b st hst hnr
    obtain ⟨st₂, hst₂, hr₂⟩ := i3 a b st₁ hst₁
    exact ⟨st₂, hst₂, hr₁.trans hr₂⟩

theorem mark_messages_as_delivered_mono (db : DB) (user cid : Nat) (h : db.Inv) :
    (mark_messages_as_delivered db user cid).1.Inv ∧
    ∀ a b st, db.receiptStatus a b = some st →
      ∃ st', (mark_messages_as_delivered db user cid).1.receiptStatus a b
        = some st' ∧ st.rank ≤ st'.rank := by
  unfold mark_messages_as_delivered
  cases hc : db.getConversation cid with
  | none => exact ⟨h, fun a b st hst => ⟨st, hst, le_rfl⟩⟩
  | some c =>
    have hms : ∀ m ∈ db.messages.filter (fun m =>
        m.conversation == cid && !m.is_read && m.sender != user),
        m ∈ db.messages ∧ m.is_read = false ∧ m.sender ≠ user := by
      intro m hm
      have h1 := List.mem_filter.mp hm
      have h2 := h1.2
      simp only [Bool.and_eq_true, Bool.not_eq_true', bne_iff_ne] at h2
      exact ⟨h1.1, h2.1.2, h2.2⟩
    obtain ⟨i1, _, i3⟩ := deliveredLoop_mono user _ db hms h
    exact ⟨i1, i3⟩

/-! ### Monotonicity along any action sequence -/

theorem step_mono (db : DB) (op : Op) (h : db.Inv) :
    (step db op).Inv ∧ ∀ a b st, db.receiptStatus a b = some st →
      ∃ st', (step db op).receiptStatus a b = some st' ∧ st.rank ≤ st'.rank := by
  cases op with
  | send u cid content mt => exact step_send_mono db u cid content mt h
  | markRead u mid => exact step_markRead_mono db u mid h
  | join u cid =>
    simp only [step]
    split
    · exact mark_messages_as_delivered_mono db u cid h
    · exact ⟨h, fun a b st hst => ⟨st, hst, le_rfl⟩⟩

theorem run_mono (db : DB) (ops : List Op) (h : db.Inv) :
    (run db ops).Inv ∧ ∀ a b st, db.receiptStatus a b = some st →
      ∃ st', (run db ops).receiptStatus a b = some st' ∧ st.rank ≤ st'.rank := by
  induction ops generalizing db with
  | nil => exact ⟨h, fun a b st hst => ⟨st, hst, le_rfl⟩⟩
  | cons op rest ih =>
    obtain ⟨h1, h2⟩ := step_mono db op h
    obtain ⟨g1, g2⟩ := ih (step db op) h1
    refine ⟨g1, ?_⟩
    intro a b st hst
    obtain ⟨st₁, hst₁, hr₁⟩ := h2 a b st hst
    obtain ⟨st₂, hst₂, hr₂⟩ := g2 a b st₁ hst₁
    exact ⟨st₂, hst₂, hr₁.trans hr₂⟩

/-! ### Registry lemmas -/

theorem members_groupDiscard_self (reg : Registry) (g : Group) (ch : Nat) :
    ch ∉ (reg.groupDiscard g ch).members g := by
  unfold Registry.groupDiscard Registry.members
  have hp : ∀ e : Group × List Nat,
      ((if e.1 == g then (e.1, e.2.filter (fun c => c != ch)) else e).1 == g) =
        (e.1 == g) := by
    intro e
    split <;> rfl
  rw [find?_map_key _ _ hp]
  cases hf : reg.groups.find? (fun e => e.1 == g) with
  | none => simp
  | some e =>
    have hk := List.find?_some hf
    show ch ∉ (if e.1 == g then (e.1, e.2.filter (fun c => c != ch)) else e).2
    rw [if_pos hk]
    intro hmem
    have := (List.mem_filter.mp hmem).2
    simp at this

theorem members_groupDiscard_other (reg : Registry) (g g' : Group) (ch : Nat)
    (h : g' ≠ g) : (reg.groupDiscard g ch).members g' = reg.members g' := by
  unfold Registry.groupDiscard Registry.members
  have hp : ∀ e : Group × List Nat,
      ((if e.1 == g then (e.1, e.2.filter (fun c => c != ch)) else e).1 == g') =
        (e.1 == g') := by
    intro e
    split <;> rfl
  rw [find?_map_key _ _ hp]
  cases hf : reg.groups.find? (fun e => e.1 == g') with
  | none => rfl
  | some e =>
    have hk := List.find?_some hf
    have hke : e.1 = g' := by simpa using hk
    show (if e.1 == g then (e.1, e.2.filter (fun c => c != ch)) else e).2 = e.2
    rw [if_neg (show ¬((e.1 == g) = true) by simp [hke, h])]

/-! ### Fan-out event counting -/

theorem countP_map_eq {α : Type} (f : α → α) (p : α → Bool)
    (hp : ∀ a, p (f a) = p a) (l : List α) : (l.map f).countP p = l.countP p := by
  induction l with
  | nil => rfl
  | cons a l ih => simp [List.countP_cons, hp, ih]

theorem event_group_block (q nid cid u ci ca : Nat) :
    ∀ e ∈ [Event.chatMessage (userGroup q) nid cid u,
      Event.conversationUpdate (userGroup q) ci ca nid], e.group = userGroup q := by
  intro e he
  rcases List.mem_cons.mp he with rfl | he
  · rfl
  · rcases List.mem_singleton.mp he with rfl
    rfl

theorem block_countP_cm (p q nid cid u ci ca : Nat) :
    ([Event.chatMessage (userGroup q) nid cid u,
      Event.conversationUpdate (userGroup q) ci ca nid].countP
        (Event.isChatMessageTo (userGroup p))) = if q = p then 1 else 0 := by
  by_cases h : q = p <;>
    simp [h, Event.isChatMessageTo, List.countP_cons, userGroup]

theorem block_countP_cu (p q nid cid u ci ca : Nat) :
    ([Event.chatMessage (userGroup q) nid cid u,
      Event.conversationUpdate (userGroup q) ci ca nid].countP
        (Event.isConversationUpdateTo (userGroup p))) = if q = p then 1 else 0 := by
  by_cases h : q = p <;>
    simp [h, Event.isConversationUpdateTo, List.countP_cons, userGroup]

/-! ### Device registration lemmas -/

theorem register_device_users (ndb : NotifDB) (uid : Nat) (t pf : String)
    (dn : Option String) :
    (register_device ndb uid t pf dn).1.users = ndb.users := by
  unfold register_device
  by_cases h : uid ∈ ndb.users
  · rw [if_pos h]
    cases ndb.deviceTokens.find? (fun d => d.token == t) <;> rfl
  · rw [if_neg h]

theorem register_device_count (ndb : NotifDB) (uid : Nat) (t pf : String)
    (dn : Option String) (h : uid ∈ ndb.users)
    (huniq : ndb.deviceTokens.countP (fun d => d.token == t) ≤ 1) :
    (register_device ndb uid t pf dn).1.deviceTokens.countP
      (fun d => d.token == t) = 1 ∧
    ∀ d ∈ (register_device ndb uid t pf dn).1.deviceTokens, d.token = t →
      d.user = uid ∧ d.is_active = true := by
  unfold register_device
  rw [if_pos h]
  cases hf : ndb.deviceTokens.find? (fun d => d.token == t) with
  | none =>
    have h0 : ndb.deviceTokens.countP (fun d => d.token == t) = 0 :=
      List.countP_eq_zero.mpr (fun d hd => List.find?_eq_none.mp hf d hd)
    constructor
    · show (ndb.deviceTokens ++
        [({ user := uid, token := t, platform := pf, device_name := dn,
            is_active := true } : DeviceToken)]).countP (fun d => d.token == t) = 1
      rw [List.countP_append, h0]
      simp
    · intro d hd hdt
      rcases List.mem_append.mp hd with h1 | h1
      · have := List.find?_eq_none.mp hf d h1
        exact absurd (by simpa using hdt) this
      · rcases List.mem_singleton.mp h1 with rfl
        exact ⟨rfl, rfl⟩
  | some e =>
    have hpres : ∀ d : DeviceToken,
        ((if d.token == t then
            { d with
              user := uid,
              platform := pf,
              device_name := (match dn with | some x => some x | none => d.device_name),
              is_active := true }
          else d).token == t) = (d.token == t) := by
      intro d
      split <;> rfl
    have hke := List.find?_some hf
    have hpos : 0 < ndb.deviceTokens.countP (fun d => d.token == t) := by
      rw [List.countP_pos]
      exact ⟨e, List.mem_of_find?_eq_some hf, hke⟩
    constructor
    · show List.countP (fun d : DeviceToken => d.token == t)
        (ndb.deviceTokens.map _) = 1
      rw [countP_map_eq _ _ hpres]
      omega
    · intro d hd hdt
      rcases List.mem_map.mp hd with ⟨d₀, hd₀, rfl⟩
      by_cases hk : (d₀.token == t) = true
      · rw [if_pos hk]
        exact ⟨rfl, rfl⟩
      · rw [if_neg hk] at hdt
        exact absurd (by simpa using hdt) hk

/-! ### Claim theorems -/

/-- C1: along every sequence of send_message, mark_as_read and
join_conversation (mark_delivered_on_join) operations over an invariant
database, the recorded receipt status of every (message, recipient) pair
only advances in the SENT < DELIVERED < READ order and never regresses;
in particular a pair already recorded READ stays READ, so a joining user
never downgrades an existing READ receipt to DELIVERED. -/
theorem receipt_status_monotone (db : DB) (ops : List Op) (a b : Nat)
    (st : ReceiptStatus) (hInv : db.Inv) (h : db.receiptStatus a b = some st) :
    ∃ st', (run db ops).receiptStatus a b = some st' ∧ st.rank ≤ st'.rank ∧
      (st = ReceiptStatus.READ → st' = ReceiptStatus.READ) := by
  obtain ⟨st', h1, h2⟩ := (run_mono db ops hInv).2 a b st h
  exact ⟨st', h1, h2, fun hr => eq_read_of_rank_le st' (hr ▸ h2)⟩

/-- Example messaging database: one conversation, one unread message from
user 7 with a SENT receipt already recorded for recipient 8. -/
def exDB : DB :=
  { conversations :=
      [{ id := 1, participants := [7, 8], is_active := true, updated_at := 0 }],
    messages :=
      [{ id := 0, conversation := 1, sender := 7, content := "hello",
         message_type := "TEXT", is_read := false, created_at := 0 }],
    receipts := [{ message := 0, recipient := 8, status := .SENT }],
    nextMessageId := 1, now := 2 }

/-- Example operation sequence: user 8 joins, reads, 7 sends again, 8 rejoins. -/
def exOps : List Op :=
  [Op.join 8 1, Op.markRead 8 0, Op.send 7 1 "again" "TEXT", Op.join 8 1]

/-- Witness for C1 at a concrete database and operation sequence. -/
theorem receipt_status_monotone_witness :
    ∃ st', (run exDB exOps).receiptStatus 0 8 = some st' ∧
      ReceiptStatus.SENT.rank ≤ st'.rank ∧
      (ReceiptStatus.SENT = ReceiptStatus.READ → st' = ReceiptStatus.READ) :=
  receipt_status_monotone exDB exOps 0 8 .SENT (by decide) (by decide)

/-- Database for the C3 counterexample: message 5 authored by user 7. -/
def c3DB : DB :=
  { conversations :=
      [{ id := 1, participants := [7, 8], is_active := true, updated_at := 0 }],
    messages :=
      [{ id := 5, conversation := 1, sender := 7, content := "hi",
         message_type := "TEXT", is_read := false, created_at := 0 }],
    receipts := [], nextMessageId := 6, now := 3 }

/-- C3 counterexample: the author of message 5 issues mark_as_read; contrary
to the claim, a READ receipt is created for the (message, author) pair and a
message_read event is broadcast, addressed to the author own user group. -/
theorem mark_as_read_author_not_noop :
    (mark_as_read c3DB 7 5).1.receiptStatus 5 7 = some ReceiptStatus.READ ∧
    (mark_as_read c3DB 7 5).2 = [Event.messageRead (userGroup 7) 5 1 7] := by
  decide

/-- C3 amended: when the requester is the author of the message, the
message table (hence the read flag) is unchanged and no receipt of any
other pair is touched, but a READ receipt is upserted for the
(message, author) pair and one message_read event is emitted to the author
user group. -/
theorem mark_as_read_author_effect (db : DB) (u mid : Nat) (m : Message)
    (hm : db.getMessage mid = some m) (hs : m.sender = u) :
    (mark_as_read db u mid).1.messages = db.messages ∧
    (mark_as_read db u mid).1.receiptStatus mid u = some ReceiptStatus.READ ∧
    (∀ a b, ¬(a = mid ∧ b = u) →
      (mark_as_read db u mid).1.receiptStatus a b = db.receiptStatus a b) ∧
    (mark_as_read db u mid).2 =
      [Event.messageRead (userGroup u) mid m.conversation u] := by
  rw [mark_as_read_self hm hs]
  have hid : m.id = mid := getMessage_id hm
  refine ⟨(create_message_receipt_frame db m.id u .READ).1, ?_, ?_, ?_⟩
  · rw [← hid]
    exact receiptStatus_create_self db m.id u .READ
  · intro a b hab
    refine receiptStatus_create_other db m.id u a b .READ ?_
    rw [hid]
    exact hab
  · rw [hs]

/-- Witness for the amended C3 at the concrete database. -/
theorem mark_as_read_author_effect_witness :
    (mark_as_read c3DB 7 5).1.messages = c3DB.messages ∧
    (mark_as_read c3DB 7 5).1.receiptStatus 5 7 = some ReceiptStatus.READ :=
  ⟨(mark_as_read_author_effect c3DB 7 5
      ⟨5, 1, 7, "hi", "TEXT", false, 0⟩ (by decide) (by decide)).1,
   (mark_as_read_author_effect c3DB 7 5
      ⟨5, 1, 7, "hi", "TEXT", false, 0⟩ (by decide) (by decide)).2.1⟩

/-- Database for the C5 counterexample: a deactivated conversation. -/
def c5DB : DB :=
  { conversations :=
      [{ id := 1, participants := [7, 8], is_active := false, updated_at := 0 }],
    messages := [], receipts := [], nextMessageId := 0, now := 5 }

/-- C5 counterexample: conversation 1 is deactivated, yet create_message by
participant 7 persists a message and advances the conversation timestamp to
now. -/
theorem create_message_inactive_persists :
    (create_message c5DB 1 7 "hi" "TEXT").2 =
      some { id := 0, conversation := 1, sender := 7, content := "hi",
             message_type := "TEXT", is_read := false, created_at := 5 } ∧
    (create_message c5DB 1 7 "hi" "TEXT").1.messages ≠ [] ∧
    (create_message c5DB 1 7 "hi" "TEXT").1.getConversation 1 =
      some { id := 1, participants := [7, 8], is_active := false,
             updated_at := 5 } := by
  decide

/-- C5 amended: create_message fails, leaving the database unchanged, when
the conversation does not resolve or the sender is not a participant; the
active flag is not consulted, so for any resolved conversation with a
participant sender — deactivated or not — the message is persisted and the
conversation timestamp advanced to now. -/
theorem create_message_checks (db : DB) (cid u : Nat) (content mt : String) :
    (db.getConversation cid = none →
      create_message db cid u content mt = (db, none)) ∧
    (∀ c, db.getConversation cid = some c → u ∉ c.participants →
      create_message db cid u content mt = (db, none)) ∧
    (∀ c, db.getConversation cid = some c → u ∈ c.participants →
      (create_message db cid u content mt).2 =
        some (newMessage db cid u content mt) ∧
      newMessage db cid u content mt ∈ (create_message db cid u content mt).1.messages ∧
      (create_message db cid u content mt).1.getConversation cid =
        some { c with updated_at := db.now }) := by
  refine ⟨fun h => create_message_none_of_not_found h,
    fun c hc hu => create_message_none_of_not_participant hc hu,
    fun c hc hu => ?_⟩
  rw [create_message_some hc hu]
  refine ⟨rfl, ?_, ?_⟩
  · exact List.mem_append_right _ (List.mem_singleton_self _)
  · exact dbAfterCreate_getConversation hc _ _

/-- Witness for the amended C5 at the deactivated conversation. -/
theorem create_message_checks_witness :
    (create_message c5DB 1 7 "hi" "TEXT").2 =
      some (newMessage c5DB 1 7 "hi" "TEXT") ∧
    newMessage c5DB 1 7 "hi" "TEXT" ∈ (create_message c5DB 1 7 "hi" "TEXT").1.messages ∧
    (create_message c5DB 1 7 "hi" "TEXT").1.getConversation 1 =
      some { id := 1, participants := [7, 8], is_active := false,
             updated_at := c5DB.now } :=
  (create_message_checks c5DB 1 7 "hi" "TEXT").2.2
    ⟨1, [7, 8], false, 0⟩ (by decide) (by decide)

/-- C9: the mark_as_read action performs no conversation-membership check:
for a user who is not the author — and, as the unused hypothesis records,
not even a participant of the conversation — it still flips the message
read flag, upserts a READ receipt for (message, user) and emits one
message_read event to the author user group. -/
theorem mark_as_read_no_membership_check (db : DB) (u mid : Nat) (m : Message)
    (hm : db.getMessage mid = some m) (hs : m.sender ≠ u)
    (hnp : ∀ c ∈ db.conversations, c.id = m.conversation → u ∉ c.participants) :
    (∀ m' ∈ (mark_as_read db u mid).1.messages, m'.id = mid → m'.is_read = true) ∧
    (mark_as_read db u mid).1.receiptStatus mid u = some ReceiptStatus.READ ∧
    (mark_as_read db u mid).2 =
      [Event.messageRead (userGroup m.sender) mid m.conversation u] := by
  rw [mark_as_read_other hm hs]
  have hid : m.id = mid := getMessage_id hm
  have hfr := create_message_receipt_frame
    { db with messages := setRead mid db.messages } m.id u .READ
  refine ⟨?_, ?_, rfl⟩
  · rw [hfr.1]
    exact fun m' hm' => setRead_read_of_id mid m' hm'
  · rw [← hid]
    exact receiptStatus_create_self _ m.id u .READ

/-- Database for the C9 witness: user 9 is not a participant of the
conversation that message 5 belongs to. -/
def c9DB : DB :=
  { conversations :=
      [{ id := 1, participants := [7, 8], is_active := true, updated_at := 0 }],
    messages :=
      [{ id := 5, conversation := 1, sender := 7, content := "hi",
         message_type := "TEXT", is_read := false, created_at := 0 }],
    receipts := [], nextMessageId := 6, now := 3 }

/-- Witness for C9: non-participant 9 marks message 5 as read. -/
theorem mark_as_read_no_membership_check_witness :
    (∀ m' ∈ (mark_as_read c9DB 9 5).1.messages, m'.id = 5 → m'.is_read = true) ∧
    (mark_as_read c9DB 9 5).1.receiptStatus 5 9 = some ReceiptStatus.READ ∧
    (mark_as_read c9DB 9 5).2 = [Event.messageRead (userGroup 7) 5 1 9] :=
  mark_as_read_no_membership_check c9DB 9 5
    ⟨5, 1, 7, "hi", "TEXT", false, 0⟩ (by decide) (by decide) (by decide)

/-- Database for the C4 counterexample: conversation 42 with member 7. -/
def c4DB : DB :=
  { conversations :=
      [{ id := 42, participants := [7, 8], is_active := true, updated_at := 0 }],
    messages := [], receipts := [], nextMessageId := 0, now := 0 }

/-- C4 counterexample: channel 1 of user 7 connects, joins conversation 42
and disconnects; the channel leaves the user group but remains a member of
the conversation group, so a broadcast addressed to that group still
reaches it. -/
theorem disconnect_keeps_conversation_group :
    ((1 : Nat) ∈ (chat_disconnect
        (join_conversation c4DB (chat_connect (some 7) 1 ⟨[]⟩).1
          (chat_connect (some 7) 1 ⟨[]⟩).2 42).2.1
        (join_conversation c4DB (chat_connect (some 7) 1 ⟨[]⟩).1
          (chat_connect (some 7) 1 ⟨[]⟩).2 42).2.2).members
        (conversationGroup 42)) ∧
    ((1 : Nat) ∉ (chat_disconnect
        (join_conversation c4DB (chat_connect (some 7) 1 ⟨[]⟩).1
          (chat_connect (some 7) 1 ⟨[]⟩).2 42).2.1
        (join_conversation c4DB (chat_connect (some 7) 1 ⟨[]⟩).1
          (chat_connect (some 7) 1 ⟨[]⟩).2 42).2.2).members (userGroup 7)) := by
  decide

/-- C4 amended: on transport close the connection is discarded from the one
group stored in user_group_name (its user group, when it authenticated) and
from no other group: the membership of every other group — in particular
any conversation group it joined — is unchanged. -/
theorem chat_disconnect_only_user_group (conn : ChatConn) (reg : Registry)
    (g : Group) (hg : conn.user_group_name = some g) :
    conn.channel ∉ (chat_disconnect conn reg).members g ∧
    ∀ g', g' ≠ g → (chat_disconnect conn reg).members g' = reg.members g' := by
  unfold chat_disconnect
  rw [hg]
  exact ⟨members_groupDiscard_self reg g conn.channel,
    fun g' h => members_groupDiscard_other reg g g' conn.channel h⟩

/-- Witness for the amended C4 at the concrete connect/join scenario. -/
theorem chat_disconnect_only_user_group_witness :
    ((1 : Nat) ∉ (chat_disconnect
        (join_conversation c4DB (chat_connect (some 7) 1 ⟨[]⟩).1
          (chat_connect (some 7) 1 ⟨[]⟩).2 42).2.1
        (join_conversation c4DB (chat_connect (some 7) 1 ⟨[]⟩).1
          (chat_connect (some 7) 1 ⟨[]⟩).2 42).2.2).members (userGroup 7)) ∧
    ((chat_disconnect
        (join_conversation c4DB (chat_connect (some 7) 1 ⟨[]⟩).1
          (chat_connect (some 7) 1 ⟨[]⟩).2 42).2.1
        (join_conversation c4DB (chat_connect (some 7) 1 ⟨[]⟩).1
          (chat_connect (some 7) 1 ⟨[]⟩).2 42).2.2).members (conversationGroup 42) =
      (join_conversation c4DB (chat_connect (some 7) 1 ⟨[]⟩).1
        (chat_connect (some 7) 1 ⟨[]⟩).2 42).2.2.members (conversationGroup 42)) :=
  ⟨(chat_disconnect_only_user_group _ _ (userGroup 7) (by decide)).1,
   (chat_disconnect_only_user_group _ _ (userGroup 7) (by decide)).2
     (conversationGroup 42) (by decide)⟩

/-- C6: an unauthenticated (anonymous or missing-user) connect is refused
before any group join: both the chat and the notification consumer leave
the registry untouched, do not accept the connection, send nothing, and a
channel that was in no group is still in no group, so no broadcast is ever
delivered to it. -/
theorem unauthenticated_connect_refused (reg : Registry) (ch : Nat)
    (ndb : NotifDB) :
    (chat_connect none ch reg).2 = reg ∧
    (chat_connect none ch reg).1.accepted = false ∧
    (chat_connect none ch reg).1.user_group_name = none ∧
    (notif_connect ndb none ch reg).1 = reg ∧
    (notif_connect ndb none ch reg).2.1 = false ∧
    (notif_connect ndb none ch reg).2.2 = [] ∧
    (∀ g, ch ∉ reg.members g → ch ∉ (chat_connect none ch reg).2.members g) :=
  ⟨rfl, rfl, rfl, rfl, rfl, rfl, fun _ h => h⟩

/-- Witness for C6 on the empty registry. -/
theorem unauthenticated_connect_refused_witness :
    (chat_connect none 1 ⟨[]⟩).2 = (⟨[]⟩ : Registry) ∧
    (1 : Nat) ∉ (chat_connect none 1 ⟨[]⟩).2.members (userGroup 7) :=
  ⟨(unauthenticated_connect_refused ⟨[]⟩ 1 ⟨[], [], [], [], 0, 0⟩).1,
   (unauthenticated_connect_refused ⟨[]⟩ 1 ⟨[], [], [], [], 0, 0⟩).2.2.2.2.2.2
     (userGroup 7) (by decide)⟩

/-- C7: a send_message by participant u in an existing conversation
persists the new message, creates a SENT receipt for every participant
other than u, and emits to the user group of every participant exactly one
chat_message (delivered as new_message) and exactly one
conversation_update, the pair appearing in that relative order; every
emitted event is addressed to the user group of some participant, so no
connected non-participant receives anything. -/
theorem send_message_fanout (db : DB) (u cid : Nat) (content mt : String)
    (c : Conversation) (hc : db.getConversation cid = some c)
    (hu : u ∈ c.participants) (hnd : c.participants.Nodup) :
    (newMessage db cid u content mt ∈ (send_message db u cid content mt).1.messages) ∧
    (∀ p ∈ c.participants, p ≠ u →
      (send_message db u cid content mt).1.receiptStatus db.nextMessageId p =
        some ReceiptStatus.SENT) ∧
    (∀ p ∈ c.participants,
      ((send_message db u cid content mt).2.countP
        (Event.isChatMessageTo (userGroup p)) = 1) ∧
      ((send_message db u cid content mt).2.countP
        (Event.isConversationUpdateTo (userGroup p)) = 1) ∧
      [Event.chatMessage (userGroup p) db.nextMessageId cid u,
       Event.conversationUpdate (userGroup p) c.id db.now db.nextMessageId].Sublist
        (send_message db u cid content mt).2) ∧
    (∀ e ∈ (send_message db u cid content mt).2, ∃ p ∈ c.participants,
      e.group = userGroup p) := by
  rw [send_message_eq_of_some hc hu]
  refine ⟨?_, ?_, ?_, ?_⟩
  · rw [(sendLoop_frame u db.nextMessageId cid _ c.participants _).1]
    exact List.mem_append_right _ (List.mem_singleton_self _)
  · intro p hp hpu
    exact sendLoop_receiptStatus_sent u db.nextMessageId cid _ c.participants _
      hnd p hp hpu
  · intro p hp
    rw [sendLoop_events u db.nextMessageId cid _ c.participants _]
    refine ⟨?_, ?_, ?_⟩
    · refine countP_flatMap_one _ _ c.participants p hnd hp ?_ ?_
      · rw [block_countP_cm p p db.nextMessageId cid u c.id db.now]
        simp
      · intro q _ hqp
        rw [block_countP_cm p q db.nextMessageId cid u c.id db.now]
        simp [hqp]
    · refine countP_flatMap_one _ _ c.participants p hnd hp ?_ ?_
      · rw [block_countP_cu p p db.nextMessageId cid u c.id db.now]
        simp
      · intro q _ hqp
        rw [block_countP_cu p q db.nextMessageId cid u c.id db.now]
        simp [hqp]
    · exact sublist_flatMap_of_mem (fun q =>
        [Event.chatMessage (userGroup q) db.nextMessageId cid u,
         Event.conversationUpdate (userGroup q) c.id db.now db.nextMessageId])
        c.participants p hp
  · intro e he
    rw [sendLoop_events u db.nextMessageId cid _ c.participants _] at he
    rcases List.mem_flatMap.mp he with ⟨q, hq, he'⟩
    exact ⟨q, hq, event_group_block q db.nextMessageId cid u c.id db.now e he'⟩

/-- Database for the C7 witness. -/
def c7DB : DB :=
  { conversations :=
      [{ id := 1, participants := [7, 8], is_active := true, updated_at := 0 }],
    messages := [], receipts := [], nextMessageId := 0, now := 4 }

/-- Witness for C7: user 7 sends into conversation 1 with participants 7, 8. -/
theorem send_message_fanout_witness :
    (newMessage c7DB 1 7 "yo" "TEXT" ∈ (send_message c7DB 7 1 "yo" "TEXT").1.messages) ∧
    (∀ p ∈ [7, 8], p ≠ 7 →
      (send_message c7DB 7 1 "yo" "TEXT").1.receiptStatus 0 p =
        some ReceiptStatus.SENT) ∧
    (∀ p ∈ [7, 8],
      ((send_message c7DB 7 1 "yo" "TEXT").2.countP
        (Event.isChatMessageTo (userGroup p)) = 1) ∧
      ((send_message c7DB 7 1 "yo" "TEXT").2.countP
        (Event.isConversationUpdateTo (userGroup p)) = 1) ∧
      [Event.chatMessage (userGroup p) 0 1 7,
       Event.conversationUpdate (userGroup p) 1 4 0].Sublist
        (send_message c7DB 7 1 "yo" "TEXT").2) ∧
    (∀ e ∈ (send_message c7DB 7 1 "yo" "TEXT").2, ∃ p ∈ [7, 8],
      e.group = userGroup p) :=
  send_message_fanout c7DB 7 1 "yo" "TEXT"
    ⟨1, [7, 8], true, 0⟩ (by decide) (by decide) (by decide)

/-- Database for C2: user 7 exists and has opted out of like
notifications (likes = false). -/
def c2DB : NotifDB :=
  { users := [7], notifications := [],
    preferences :=
      [{ user := 7, receive_email := false, receive_push := false,
         matches' := true, messages := true, likes := false, events := true,
         subscription := true, system := true }],
    deviceTokens := [], nextNotificationId := 0, now := 0 }

/-- C2 (code bug): recipient 7 has likes = false, yet send_notification
with type LIKE creates a Notification row: the code consults
getattr(preferences, notification_type.lower(), True) and the lowercased
type name "like" matches no attribute of the preference model (the field
is named "likes"), so the lookup falls back to the default true and the
opt-out is ignored. -/
theorem send_notification_like_pref_ignored :
    (send_notification c2DB 7 "LIKE" true true).db.notifications.length = 1 ∧
    (send_notification c2DB 7 "LIKE" true true).notification.isSome = true ∧
    pyLower "LIKE" = "like" ∧
    NotificationPreference.getattrOrTrue
      ⟨7, false, false, true, true, false, true, true, true⟩ "like" = true := by
  decide

/-- C8: device registration is last-registration-wins on the raw token:
after registering token t for ua and then the same t for ub, exactly one
row carries t, owned by ub and active, so the active-token set of ua that a
push would use contains no row with token t; unregistering an unknown
token changes nothing and reports failure. -/
theorem register_device_last_wins (ndb : NotifDB) (ua ub : Nat)
    (t pfa pfb : String) (dna dnb : Option String)
    (ha : ua ∈ ndb.users) (hb : ub ∈ ndb.users) (hab : ua ≠ ub)
    (huniq : ndb.deviceTokens.countP (fun d => d.token == t) ≤ 1) :
    ((register_device (register_device ndb ua t pfa dna).1 ub t pfb dnb).1.deviceTokens.countP
      (fun d => d.token == t) = 1) ∧
    (∀ d ∈ (register_device (register_device ndb ua t pfa dna).1 ub t pfb dnb).1.deviceTokens,
      d.token = t → d.user = ub ∧ d.is_active = true) ∧
    (∀ d ∈ activeTokens
        (register_device (register_device ndb ua t pfa dna).1 ub t pfb dnb).1 ua,
      d.token ≠ t) ∧
    (∀ t', ndb.deviceTokens.find? (fun d => d.token == t') = none →
      unregister_device ndb t' = (ndb, false)) := by
  have h1 := register_device_count ndb ua t pfa dna ha huniq
  have hu1 : ub ∈ (register_device ndb ua t pfa dna).1.users := by
    rw [register_device_users]
    exact hb
  have h2 := register_device_count (register_device ndb ua t pfa dna).1 ub t pfb
    dnb hu1 (le_of_eq h1.1)
  refine ⟨h2.1, h2.2, ?_, ?_⟩
  · intro d hd hdt
    have hmem := (List.mem_filter.mp hd).1
    have hcond := (List.mem_filter.mp hd).2
    have hub := h2.2 d hmem hdt
    simp only [Bool.and_eq_true, beq_iff_eq] at hcond
    exact absurd (hcond.1.symm.trans hub.1) hab
  · intro t' hft
    unfold unregister_device
    rw [hft]

/-- Database for the C8 witness: two users, no tokens yet. -/
def c8DB : NotifDB :=
  { users := [1, 2], notifications := [], preferences := [],
    deviceTokens := [], nextNotificationId := 0, now := 0 }

/-- Witness for C8: register token T for user 1 then for user 2. -/
theorem register_device_last_wins_witness :
    ((register_device (register_device c8DB 1 "T" "WEB" none).1 2 "T" "IOS"
        none).1.deviceTokens.countP (fun d => d.token == "T") = 1) ∧
    (∀ d ∈ activeTokens
        (register_device (register_device c8DB 1 "T" "WEB" none).1 2 "T" "IOS"
          none).1 1,
      d.token ≠ "T") ∧
    unregister_device c8DB "X" = (c8DB, false) :=
  ⟨(register_device_last_wins c8DB 1 2 "T" "WEB" "IOS" none none (by decide)
      (by decide) (by decide) (by decide)).1,
   (register_device_last_wins c8DB 1 2 "T" "WEB" "IOS" none none (by decide)
      (by decide) (by decide) (by decide)).2.2.1,
   (register_device_last_wins c8DB 1 2 "T" "WEB" "IOS" none none (by decide)
      (by decide) (by decide) (by decide)).2.2.2 "X" (by decide)⟩

/-- C10: on a successful notification-channel connect the batch sent is at
most the 20 most recent unread notifications of the user in descending
creation order (every unread notification left out is no newer than any
sent one), the reported count equals the length of the list sent, and no
unread_notifications event at all is sent when the user has zero unread
notifications. -/
theorem notif_connect_unread (ndb : NotifDB) (u ch : Nat) (reg : Registry) :
    (unreadOf ndb u = [] → (notif_connect ndb (some u) ch reg).2.2 = []) ∧
    (unreadOf ndb u ≠ [] →
      (notif_connect ndb (some u) ch reg).2.2 =
        [NotifEvent.unreadNotifications (get_unread_notifications ndb u)
          (get_unread_notifications ndb u).length] ∧
      (get_unread_notifications ndb u).length ≤ 20 ∧
      List.Sorted createdDesc (get_unread_notifications ndb u) ∧
      List.Perm (get_unread_notifications ndb u ++
        (List.insertionSort createdDesc (unreadOf ndb u)).drop 20) (unreadOf ndb u) ∧
      (∀ x ∈ get_unread_notifications ndb u,
        ∀ y ∈ (List.insertionSort createdDesc (unreadOf ndb u)).drop 20,
          y.created_at ≤ x.created_at)) := by
  constructor
  · intro h
    have hg : get_unread_notifications ndb u = [] := by
      unfold get_unread_notifications
      rw [h]
      rfl
    simp [notif_connect, hg]
  · intro hne
    have hne' : (get_unread_notifications ndb u).isEmpty = false := by
      unfold get_unread_notifications
      cases hs : List.insertionSort createdDesc (unreadOf ndb u) with
      | nil =>
        exfalso
        apply hne
        have hperm := List.perm_insertionSort createdDesc (unreadOf ndb u)
        rw [hs] at hperm
        exact (hperm.symm).eq_nil
      | cons a l => rfl
    refine ⟨?_, ?_, ?_, ?_, ?_⟩
    · simp [notif_connect, hne']
    · exact List.length_take_le 20 _
    · exact List.Pairwise.sublist (List.take_sublist 20 _)
        (List.sorted_insertionSort createdDesc (unreadOf ndb u))
    · show List.Perm ((List.insertionSort createdDesc (unreadOf ndb u)).take 20 ++
        (List.insertionSort createdDesc (unreadOf ndb u)).drop 20) (unreadOf ndb u)
      rw [List.take_append_drop]
      exact List.perm_insertionSort createdDesc (unreadOf ndb u)
    · have hsorted := List.sorted_insertionSort createdDesc (unreadOf ndb u)
      rw [← List.take_append_drop 20
        (List.insertionSort createdDesc (unreadOf ndb u))] at hsorted
      exact (List.pairwise_append.mp hsorted).2.2

/-- Database for the C10 witness: user 7 has two unread and one read
notification. -/
def c10DB : NotifDB :=
  { users := [7],
    notifications :=
      [{ id := 1, recipient := 7, notification_type := "LIKE", is_read := false,
         is_email_sent := false, is_push_sent := false, created_at := 1 },
       { id := 2, recipient := 7, notification_type := "LIKE", is_read := true,
         is_email_sent := false, is_push_sent := false, created_at := 2 },
       { id := 3, recipient := 7, notification_type := "LIKE", is_read := false,
         is_email_sent := false, is_push_sent := false, created_at := 3 }],
    preferences := [], deviceTokens := [], nextNotificationId := 4, now := 9 }

/-- Witness for C10 at the concrete database. -/
theorem notif_connect_unread_witness :
    (notif_connect c10DB (some 7) 1 ⟨[]⟩).2.2 =
      [NotifEvent.unreadNotifications (get_unread_notifications c10DB 7)
        (get_unread_notifications c10DB 7).length] ∧
    (get_unread_notifications c10DB 7).length ≤ 20 ∧
    List.Sorted createdDesc (get_unread_notifications c10DB 7) :=
  ⟨((notif_connect_unread c10DB 7 1 ⟨[]⟩).2 (by decide)).1,
   ((notif_connect_unread c10DB 7 1 ⟨[]⟩).2 (by decide)).2.1,
   ((notif_connect_unread c10DB 7 1 ⟨[]⟩).2 (by decide)).2.2.1⟩

end Findam
